import Mathlib

/-!
Shallow embedding of `src/pipeline/extração.py` (class `DatabaseMigration`):
a chunked, resumable migration of Firebird tables into a PostgreSQL
`bronze` schema.  Cell values are modelled by `Value`, rows by lists of
values, tables and dataframes by lists of rows.  Database side effects are
made explicit: the destination table is a list of rows threaded through
the functions, bulk/row append success is an abstract predicate `rowOk`
on rows, and an `appendBulk` failure is modelled by returning the
destination unchanged (the `conn.rollback()` branch) together with a
`false` flag.
-/

/-- A cell value of a migrated row: a text scalar, a non-text scalar, or
the NULL marker (`None`/`NaN` in the source). -/
inductive Value where
  | str : String → Value
  | num : Int → Value
  | null : Value
deriving DecidableEq, Repr

/-- A row is an ordered sequence of cell values. -/
abbrev Row := List Value

/-- The NUL character `\x00` that `sanitize_dataframe` strips. -/
def nulChar : Char := Char.ofNat 0

/-- One cell of `sanitize_dataframe`'s mapping: the Python
`x.replace('\x00', '') if isinstance(x, str) else x` (line 58). -/
def sanitize_cell (v : Value) : Value :=
  match v with
  | Value.str s => Value.str (String.mk (s.data.filter (fun c => c != nulChar)))
  | v => v

/-- `sanitize_dataframe` applied to one row (pandas maps the lambda over
every cell of every column). -/
def sanitize_row (r : Row) : Row := r.map sanitize_cell

/-- `sanitize_dataframe` (lines 56-58): strips NUL characters from string
cells, leaves every other cell unchanged. -/
def sanitize_dataframe (df : List Row) : List Row := df.map sanitize_row

/-- The `cursor.copy_expert` bulk COPY of a dataframe (lines 69-74),
relative to an abstract per-row success predicate `rowOk`: the COPY
succeeds iff every row of the block is acceptable, and on failure the
transaction is rolled back, leaving the destination unchanged.  Returns
the new destination contents and a success flag. -/
def appendBulk (rowOk : Row → Bool) (dest : List Row) (df : List Row) :
    List Row × Bool :=
  if df.all rowOk then (dest ++ df, true) else (dest, false)

/-- `load_rows_individually` (lines 81-96): one COPY per row, each in its
own transaction; a failing row is logged, rolled back and skipped, and the
loop continues with the next row. -/
def load_rows_individually (rowOk : Row → Bool) (dest : List Row)
    (df : List Row) : List Row :=
  df.foldl (fun d row => if rowOk row then d ++ [row] else d) dest

/-- `load_data_using_copy` (lines 60-79): sanitize the dataframe, attempt
the bulk COPY, and on failure fall back to row-by-row loading of the same
(already sanitized) dataframe, starting from the rolled-back destination. -/
def load_data_using_copy (rowOk : Row → Bool) (dest : List Row)
    (df : List Row) : List Row :=
  let df' := sanitize_dataframe df
  let r := appendBulk rowOk dest df'
  if r.2 then r.1 else load_rows_individually rowOk r.1 df'

/-- The paginated Firebird read
`SELECT * FROM t ROWS offset+1 TO offset+block_size` (line 131): rows of
the source with 1-based row numbers `offset+1 .. offset+blockSize`;
empty once `offset` reaches the row count. -/
def readPage (source : List Row) (offset blockSize : Nat) : List Row :=
  (source.drop offset).take blockSize

/-- The `while offset < total_records` loop of
`extract_and_load_data_in_chunks` (lines 126-142).  Returns the final
offset, the final destination contents, and the list of processed pages,
each tagged with the offset at which it was requested.  `source.length`
plays `total_records` (the row count snapshotted before the loop). -/
def pagingLoop (rowOk : Row → Bool) (source : List Row) (blockSize : Nat)
    (offset : Nat) (dest : List Row) :
    Nat × List Row × List (Nat × List Row) :=
  if h : offset < source.length then
    let rows := readPage source offset blockSize
    if hr : rows.isEmpty then (offset, dest, [])
    else
      let dest' := load_data_using_copy rowOk dest rows
      let r := pagingLoop rowOk source blockSize (offset + rows.length) dest'
      (r.1, r.2.1, (offset, rows) :: r.2.2)
  else (offset, dest, [])
termination_by source.length - offset
decreasing_by
  have hne : rows ≠ [] := by simpa using hr
  have hlen : 0 < (readPage source offset blockSize).length :=
    List.length_pos.mpr hne
  omega

/-- `extract_and_load_data_in_chunks` (lines 107-144): snapshot the source
total, initialize `offset` from `get_destination_row_count` (lines 98-105,
modelled as the length of the destination contents), then run the paging
loop.  Default `block_size` is 10000. -/
def extract_and_load_data_in_chunks (rowOk : Row → Bool) (source : List Row)
    (dest : List Row) (blockSize : Nat) :
    Nat × List Row × List (Nat × List Row) :=
  pagingLoop rowOk source blockSize dest.length dest

/-- The per-table loop of `run_migration` (lines 154-157).  `migrate t`
models the call `extract_and_load_data_in_chunks(t)`; `Except.error`
models an exception raised by it.  The loop body has no try/except, so an
exception aborts the loop and propagates.  Returns the tables for which
the migrator was invoked and the propagated error, if any. -/
def orchestrate (migrate : String → Except String Unit) :
    List String → List String × Option String
  | [] => ([], none)
  | t :: ts =>
    match migrate t with
    | Except.ok _ =>
      let r := orchestrate migrate ts
      (t :: r.1, r.2)
    | Except.error e => ([t], some e)

/-- The list-comprehension filter of `run_migration` (line 149):
`[table for table in tables_to_load if table in available_tables]`. -/
def tables_to_load (available requested : List String) : List String :=
  requested.filter (fun t => decide (t ∈ available))

/-- `run_migration` (lines 146-157): keep the requested tables available
at the source, then migrate each in order. -/
def run_migration (available : List String)
    (migrate : String → Except String Unit) (requested : List String) :
    List String × Option String :=
  orchestrate migrate (tables_to_load available requested)

/-- Derived characterization (not part of the embedding): the
`(offset, page length)` pairs the paging loop produces, computed from the
source total and the block size alone. -/
def pagesShape (total bs off : Nat) : List (Nat × Nat) :=
  if off < total then
    let len := min bs (total - off)
    if len = 0 then []
    else (off, len) :: pagesShape total bs (off + len)
  else []
termination_by total - off
decreasing_by
  have : 0 < len := Nat.pos_of_ne_zero (by assumption)
  omega

lemma readPage_length (source : List Row) (off bs : Nat) :
    (readPage source off bs).length = min bs (source.length - off) := by
  simp [readPage]

lemma pagingLoop_stop (rowOk : Row → Bool) (source : List Row)
    (bs off : Nat) (dest : List Row) (h : source.length ≤ off) :
    pagingLoop rowOk source bs off dest = (off, dest, []) := by
  rw [pagingLoop]
  simp [Nat.not_lt.mpr h]

/-- The pages produced by the paging loop, and its final offset, depend
only on the source total and the block size, as recorded by `pagesShape`:
neither the destination contents nor the append outcomes influence them. -/
lemma pagingLoop_shape (rowOk : Row → Bool) (source : List Row) (bs : Nat) :
    ∀ (n off : Nat) (dest : List Row), source.length - off ≤ n →
      ((pagingLoop rowOk source bs off dest).2.2.map
          (fun pr => (pr.1, pr.2.length)) = pagesShape source.length bs off)
      ∧ (pagingLoop rowOk source bs off dest).1 =
          off + ((pagesShape source.length bs off).map Prod.snd).sum := by
  intro n
  induction n with
  | zero =>
    intro off dest hoff
    have h : ¬ off < source.length := by omega
    rw [pagingLoop, pagesShape]
    simp [h]
  | succ n ih =>
    intro off dest hoff
    by_cases h : off < source.length
    · have hrl := readPage_length source off bs
      by_cases hbs0 : min bs (source.length - off) = 0
      · have hre : (readPage source off bs).isEmpty = true := by
          rw [List.isEmpty_iff_length_eq_zero, hrl, hbs0]
        rw [pagingLoop, pagesShape]
        simp [h, hre, hbs0]
      · have hne : ¬ (readPage source off bs).isEmpty = true := by
          rw [List.isEmpty_iff_length_eq_zero, hrl]
          exact hbs0
        have hrec := ih (off + min bs (source.length - off))
          (load_data_using_copy rowOk dest (readPage source off bs))
          (by omega)
        rw [pagingLoop, pagesShape]
        simp [h, hne, hbs0, hrl, hrec.1, hrec.2]
        omega
    · rw [pagingLoop, pagesShape]
      simp [h]

lemma pagesShape_stop (total bs off : Nat) (h : total ≤ off) :
    pagesShape total bs off = [] := by
  rw [pagesShape]
  simp [Nat.not_lt.mpr h]

lemma pagesShape_sum (total bs : Nat) (hbs : 1 ≤ bs) :
    ∀ n off, total - off ≤ n →
      off + ((pagesShape total bs off).map Prod.snd).sum = max off total := by
  intro n
  induction n with
  | zero =>
    intro off hoff
    rw [pagesShape_stop total bs off (by omega)]
    simp
    omega
  | succ n ih =>
    intro off hoff
    by_cases h : off < total
    · have hlen0 : ¬ min bs (total - off) = 0 := by omega
      have ihrec := ih (off + min bs (total - off)) (by omega)
      rw [pagesShape]
      simp only [h, if_true, hlen0, if_false, List.map_cons, List.sum_cons]
      omega
    · rw [pagesShape_stop total bs off (by omega)]
      simp
      omega

lemma pagesShape_cover (total bs : Nat) (hbs : 1 ≤ bs) :
    ∀ n off, total - off ≤ n →
      ((pagesShape total bs off).map
          (fun pr => List.range' (pr.1 + 1) pr.2)).flatten
        = List.range' (off + 1) (total - off) := by
  intro n
  induction n with
  | zero =>
    intro off hoff
    rw [pagesShape_stop total bs off (by omega)]
    have : total - off = 0 := by omega
    simp [this]
  | succ n ih =>
    intro off hoff
    by_cases h : off < total
    · have hlen0 : ¬ min bs (total - off) = 0 := by omega
      have hle : min bs (total - off) ≤ total - off := Nat.min_le_right _ _
      have ihrec := ih (off + min bs (total - off)) (by omega)
      rw [pagesShape]
      simp only [h, if_true, hlen0, if_false, List.map_cons, List.flatten_cons]
      rw [ihrec]
      have h1 : off + min bs (total - off) + 1 =
          (off + 1) + 1 * min bs (total - off) := by omega
      have h2 : total - (off + min bs (total - off)) =
          total - off - min bs (total - off) := by omega
      rw [h1, h2, List.range'_append]
      congr 1
      omega
    · rw [pagesShape_stop total bs off (by omega)]
      have : total - off = 0 := by omega
      simp [this]

lemma pagesShape_bounds (total bs : Nat) :
    ∀ n off, total - off ≤ n →
      (pagesShape total bs off).length ≤ total - off
      ∧ (∀ pr ∈ pagesShape total bs off, 1 ≤ pr.2 ∧ off ≤ pr.1)
      ∧ (pagesShape total bs off).Pairwise (fun a b => a.1 < b.1) := by
  intro n
  induction n with
  | zero =>
    intro off hoff
    rw [pagesShape_stop total bs off (by omega)]
    simp
  | succ n ih =>
    intro off hoff
    by_cases h : off < total
    · by_cases hlen0 : min bs (total - off) = 0
      · rw [pagesShape]
        simp [h, hlen0]
      · have ihrec := ih (off + min bs (total - off)) (by omega)
        rw [pagesShape]
        simp only [h, if_true, hlen0, if_false, List.length_cons,
          List.mem_cons, List.pairwise_cons]
        refine ⟨by omega, ?_, ?_, ihrec.2.2⟩
        · intro pr hpr
          rcases hpr with hpr | hpr
          · subst hpr
            constructor
            · omega
            · exact Nat.le_refl _
          · have := ihrec.2.1 pr hpr
            omega
        · intro pr hpr
          have := ihrec.2.1 pr hpr
          omega
    · rw [pagesShape_stop total bs off (by omega)]
      simp

lemma load_rows_individually_eq (rowOk : Row → Bool) (dest df : List Row) :
    load_rows_individually rowOk dest df = dest ++ df.filter rowOk := by
  induction df generalizing dest with
  | nil => simp [load_rows_individually]
  | cons r rs ih =>
    unfold load_rows_individually at ih ⊢
    simp only [List.foldl_cons]
    by_cases h : rowOk r = true
    · rw [if_pos h, ih, List.filter_cons_of_pos h]
      simp
    · rw [if_neg h, ih, List.filter_cons_of_neg h]

lemma load_data_using_copy_allOk (rowOk : Row → Bool) (dest df : List Row)
    (hok : (sanitize_dataframe df).all rowOk = true) :
    load_data_using_copy rowOk dest df = dest ++ sanitize_dataframe df := by
  simp [load_data_using_copy, appendBulk, hok]

lemma sanitize_dataframe_length (df : List Row) :
    (sanitize_dataframe df).length = df.length := by
  simp [sanitize_dataframe]

lemma sanitize_append (df₁ df₂ : List Row) :
    sanitize_dataframe (df₁ ++ df₂)
      = sanitize_dataframe df₁ ++ sanitize_dataframe df₂ := by
  simp [sanitize_dataframe]

lemma readPage_append_drop (source : List Row) (off bs : Nat) :
    readPage source off bs
      ++ source.drop (off + (readPage source off bs).length)
      = source.drop off := by
  rw [readPage_length]
  rcases Nat.le_total bs (source.length - off) with hle | hle
  · rw [Nat.min_eq_left hle]
    have hdd : source.drop (off + bs) = (source.drop off).drop bs := by
      simp [List.drop_drop, Nat.add_comm]
    rw [hdd, readPage, List.take_append_drop]
  · rw [Nat.min_eq_right hle]
    have hnil : source.drop (off + (source.length - off)) = [] := by
      apply List.drop_eq_nil_of_le
      omega
    have htake : readPage source off bs = source.drop off := by
      rw [readPage]
      apply List.take_of_length_le
      rw [List.length_drop]
      omega
    rw [hnil, htake, List.append_nil]

/-- When every (sanitized) row is accepted, each page lands via the bulk
path and the final destination is the original destination followed by the
sanitized remainder of the source. -/
lemma pagingLoop_dest_allOk (rowOk : Row → Bool) (source : List Row)
    (bs : Nat) (hok : ∀ r : Row, rowOk r = true) (hbs : 1 ≤ bs) :
    ∀ (n off : Nat) (dest : List Row), source.length - off ≤ n →
      (pagingLoop rowOk source bs off dest).2.1
        = dest ++ sanitize_dataframe (source.drop off) := by
  intro n
  induction n with
  | zero =>
    intro off dest hoff
    rw [pagingLoop_stop rowOk source bs off dest (by omega)]
    rw [List.drop_eq_nil_of_le (by omega)]
    simp [sanitize_dataframe]
  | succ n ih =>
    intro off dest hoff
    by_cases h : off < source.length
    · have hrl := readPage_length source off bs
      have hlen0 : ¬ (readPage source off bs).length = 0 := by omega
      have hne : ¬ (readPage source off bs).isEmpty = true := by
        rw [List.isEmpty_iff_length_eq_zero]
        exact hlen0
      have hall : (sanitize_dataframe (readPage source off bs)).all rowOk
          = true := by
        simp [List.all_eq_true]
        intro r hr
        exact hok r
      have ihrec := ih (off + (readPage source off bs).length)
        (load_data_using_copy rowOk dest (readPage source off bs))
        (by omega)
      rw [pagingLoop]
      simp [h, hne]
      rw [ihrec, load_data_using_copy_allOk rowOk dest _ hall,
        List.append_assoc, ← sanitize_append, readPage_append_drop]
    · rw [pagingLoop_stop rowOk source bs off dest (by omega)]
      rw [List.drop_eq_nil_of_le (by omega)]
      simp [sanitize_dataframe]

lemma sanitize_cell_idem (v : Value) :
    sanitize_cell (sanitize_cell v) = sanitize_cell v := by
  cases v with
  | str s => simp [sanitize_cell, List.filter_filter]
  | num n => rfl
  | null => rfl

lemma load_data_using_copy_fail (rowOk : Row → Bool) (dest df : List Row)
    (hfail : (sanitize_dataframe df).all rowOk = false) :
    load_data_using_copy rowOk dest df
      = dest ++ (sanitize_dataframe df).filter rowOk := by
  simp [load_data_using_copy, appendBulk, hfail, load_rows_individually_eq]

/-- C10: the NUL-stripping sanitizer is idempotent on dataframes, so the
already sanitized rows that a failed bulk attempt hands to the row-level
fallback would not be altered by sanitizing again. -/
theorem c10_sanitize_idempotent (df : List Row) :
    sanitize_dataframe (sanitize_dataframe df) = sanitize_dataframe df := by
  simp [sanitize_dataframe, sanitize_row, List.map_map, Function.comp_def,
    sanitize_cell_idem]

/-- C5: sanitization removes exactly the NUL characters from string cells
and passes every non-string cell (including NULL) through unchanged, and
the destination only ever gains rows taken from the sanitized dataframe,
on the bulk path and on the row-level fallback path alike. -/
theorem c5_nul_stripping (rowOk : Row → Bool) (dest df : List Row) :
    (∀ s : String, ∃ t : String,
        sanitize_cell (Value.str s) = Value.str t
        ∧ t.data = s.data.filter (fun c => c != nulChar)
        ∧ nulChar ∉ t.data)
    ∧ (∀ v : Value, (∀ s : String, v ≠ Value.str s) → sanitize_cell v = v)
    ∧ (∃ sub : List Row, sub.Sublist (sanitize_dataframe df)
        ∧ load_data_using_copy rowOk dest df = dest ++ sub) := by
  refine ⟨?_, ?_, ?_⟩
  · intro s
    refine ⟨_, rfl, rfl, ?_⟩
    simp [List.mem_filter]
  · intro v hv
    cases v with
    | str s => exact absurd rfl (hv s)
    | num n => rfl
    | null => rfl
  · cases hall : (sanitize_dataframe df).all rowOk with
    | true =>
      exact ⟨sanitize_dataframe df, List.Sublist.refl _,
        load_data_using_copy_allOk rowOk dest df hall⟩
    | false =>
      exact ⟨(sanitize_dataframe df).filter rowOk, List.filter_sublist _,
        load_data_using_copy_fail rowOk dest df hall⟩

/-- C6: when the bulk append of a (sanitized) page fails, the bulk unit of
work is rolled back in full — the destination gains no rows from the bulk
attempt — and the failure is converted into a row-by-row retry of that
same in-memory sanitized page, starting from the rolled-back destination;
the migrator-level result is the fallback's result, so the failure does
not propagate. -/
theorem c6_bulk_failure_rollback (rowOk : Row → Bool) (dest df : List Row)
    (hfail : (sanitize_dataframe df).all rowOk = false) :
    (appendBulk rowOk dest (sanitize_dataframe df)).1 = dest
    ∧ (appendBulk rowOk dest (sanitize_dataframe df)).2 = false
    ∧ load_data_using_copy rowOk dest df
        = load_rows_individually rowOk dest (sanitize_dataframe df) := by
  refine ⟨?_, ?_, ?_⟩ <;>
    simp [appendBulk, hfail, load_data_using_copy]

/-- Witness for C6 at a concrete input: a one-row page whose row the sink
rejects. -/
theorem c6_bulk_failure_rollback_witness :
    ((sanitize_dataframe [[Value.null]]).all
        (fun r => decide (r ≠ [Value.null])) = false)
    ∧ ((appendBulk (fun r => decide (r ≠ [Value.null])) [[Value.num 7]]
          (sanitize_dataframe [[Value.null]])).1 = [[Value.num 7]]
      ∧ (appendBulk (fun r => decide (r ≠ [Value.null])) [[Value.num 7]]
          (sanitize_dataframe [[Value.null]])).2 = false
      ∧ load_data_using_copy (fun r => decide (r ≠ [Value.null]))
          [[Value.num 7]] [[Value.null]]
        = load_rows_individually (fun r => decide (r ≠ [Value.null]))
          [[Value.num 7]] (sanitize_dataframe [[Value.null]])) :=
  ⟨by decide,
   c6_bulk_failure_rollback (fun r => decide (r ≠ [Value.null]))
     [[Value.num 7]] [[Value.null]] (by decide)⟩

lemma orchestrate_ok (ts : List String) :
    orchestrate (fun _ => Except.ok ()) ts = (ts, none) := by
  induction ts with
  | nil => rfl
  | cons t ts ih => simp [orchestrate, ih]

lemma orchestrate_prefix_ok (migrate : String → Except String Unit) :
    ∀ (pre : List String) (t : String) (post : List String) (e : String),
      (∀ u ∈ pre, migrate u = Except.ok ()) →
      migrate t = Except.error e →
      orchestrate migrate (pre ++ t :: post) = (pre ++ [t], some e) := by
  intro pre
  induction pre with
  | nil =>
    intro t post e _ ht
    simp [orchestrate, ht]
  | cons u us ih =>
    intro t post e hpre ht
    have hu : migrate u = Except.ok () := hpre u (by simp)
    have hrec := ih t post e (fun v hv => hpre v (by simp [hv])) ht
    simp [orchestrate, hu, hrec]

/-- C8: the Orchestrator migrates exactly the requested names that exist
at the source, in requested order (the kept list is a sublist of the
requested list), raising nothing for absent names, and duplicates in the
requested list are kept once per occurrence. -/
theorem c8_table_filtering (available requested : List String) :
    (run_migration available (fun _ => Except.ok ()) requested).2 = none
    ∧ (run_migration available (fun _ => Except.ok ()) requested).1
        = tables_to_load available requested
    ∧ (tables_to_load available requested).Sublist requested
    ∧ (∀ t, t ∈ tables_to_load available requested
        ↔ t ∈ requested ∧ t ∈ available)
    ∧ (∀ t ∈ available,
        (tables_to_load available requested).count t
          = requested.count t) := by
  refine ⟨?_, ?_, ?_, ?_, ?_⟩
  · simp [run_migration, orchestrate_ok]
  · simp [run_migration, orchestrate_ok]
  · exact List.filter_sublist _
  · intro t
    simp [tables_to_load, List.mem_filter]
  · intro t ht
    exact List.count_filter (by simp [ht])

/-- C1 is refuted: with two available, requested tables where migration of
the first raises, the second — although in the intersection — is never
handed to the Chunked Migrator, and the error escapes `run_migration`
instead of being caught and logged. -/
theorem c1_counterexample :
    "B" ∈ tables_to_load ["A", "B"] ["A", "B"]
    ∧ (run_migration ["A", "B"]
        (fun t => if t = "A" then Except.error "boom" else Except.ok ())
        ["A", "B"]).2 = some "boom"
    ∧ "B" ∉ (run_migration ["A", "B"]
        (fun t => if t = "A" then Except.error "boom" else Except.ok ())
        ["A", "B"]).1 := by
  decide

/-- C1 as amended: `run_migration` has no per-table exception handling;
the tables before the failing one are migrated, the failing table's error
propagates out of the Orchestrator, and the tables after it are never
attempted. -/
theorem c1_error_stops_run (migrate : String → Except String Unit)
    (available requested pre post : List String) (t e : String)
    (hsel : tables_to_load available requested = pre ++ t :: post)
    (hpre : ∀ u ∈ pre, migrate u = Except.ok ())
    (ht : migrate t = Except.error e) :
    run_migration available migrate requested = (pre ++ [t], some e) := by
  rw [run_migration, hsel]
  exact orchestrate_prefix_ok migrate pre t post e hpre ht

/-- Witness for the amended C1 at a concrete input: tables `A`, `B` both
requested and available, `A` fails, and the run stops after `A`. -/
theorem c1_error_stops_run_witness :
    tables_to_load ["A", "B"] ["A", "B"] = [] ++ "A" :: ["B"]
    ∧ (∀ u ∈ ([] : List String),
        (fun t => if t = "A" then Except.error "boom" else Except.ok ()) u
          = Except.ok ())
    ∧ ((fun t => if t = "A" then Except.error "boom" else Except.ok ()) "A"
        = Except.error "boom")
    ∧ run_migration ["A", "B"]
        (fun t => if t = "A" then Except.error "boom" else Except.ok ())
        ["A", "B"] = ([] ++ ["A"], some "boom") :=
  ⟨by decide, by simp,
   by simp,
   c1_error_stops_run
     (fun t => if t = "A" then Except.error "boom" else Except.ok ())
     ["A", "B"] ["A", "B"] [] ["B"] "A" "boom"
     (by decide) (by simp) (by simp)⟩

/-- C2: the migrator's offset starts at the destination row count; when
that count already reaches the source total the loop body never runs — no
page is requested and the destination is untouched — and in particular a
second run after a complete first run (every row accepted) requests zero
pages. -/
theorem c2_idempotent_resumption (rowOk : Row → Bool)
    (source dest : List Row) (bs : Nat) (hbs : 1 ≤ bs) :
    (source.length ≤ dest.length →
      extract_and_load_data_in_chunks rowOk source dest bs
        = (dest.length, dest, []))
    ∧ ((∀ r : Row, rowOk r = true) →
      (extract_and_load_data_in_chunks rowOk source [] bs).2.1.length
          = source.length
      ∧ (extract_and_load_data_in_chunks rowOk source
          (extract_and_load_data_in_chunks rowOk source [] bs).2.1
          bs).2.2 = []) := by
  constructor
  · intro hge
    rw [extract_and_load_data_in_chunks,
      pagingLoop_stop rowOk source bs dest.length dest hge]
  · intro hok
    have hdest : (extract_and_load_data_in_chunks rowOk source [] bs).2.1
        = sanitize_dataframe source := by
      rw [extract_and_load_data_in_chunks]
      have := pagingLoop_dest_allOk rowOk source bs hok hbs
        source.length ([] : List Row).length [] (by simp)
      simpa using this
    have hlen : (extract_and_load_data_in_chunks rowOk source [] bs).2.1.length
        = source.length := by
      rw [hdest, sanitize_dataframe_length]
    refine ⟨hlen, ?_⟩
    rw [extract_and_load_data_in_chunks,
      pagingLoop_stop rowOk source bs _ _ (by rw [hlen])]

/-- Witness for C2 at a concrete input: a two-row source, block size
10000, an all-accepting sink; a pre-filled destination is not re-read and
the second run after a full first run requests no page. -/
theorem c2_idempotent_resumption_witness :
    1 ≤ 10000
    ∧ ([[Value.num 1], [Value.num 2]] : List Row).length
        ≤ ([[Value.num 1], [Value.num 2]] : List Row).length
    ∧ extract_and_load_data_in_chunks (fun _ => true)
        [[Value.num 1], [Value.num 2]] [[Value.num 1], [Value.num 2]] 10000
      = (2, [[Value.num 1], [Value.num 2]], [])
    ∧ (extract_and_load_data_in_chunks (fun _ => true)
        [[Value.num 1], [Value.num 2]] [] 10000).2.1.length = 2
    ∧ (extract_and_load_data_in_chunks (fun _ => true)
        [[Value.num 1], [Value.num 2]]
        (extract_and_load_data_in_chunks (fun _ => true)
          [[Value.num 1], [Value.num 2]] [] 10000).2.1 10000).2.2 = [] :=
  ⟨by decide, by decide,
   (c2_idempotent_resumption (fun _ => true)
      [[Value.num 1], [Value.num 2]] [[Value.num 1], [Value.num 2]] 10000
      (by decide)).1 (by decide),
   ((c2_idempotent_resumption (fun _ => true)
      [[Value.num 1], [Value.num 2]] [] 10000 (by decide)).2
      (fun _ => rfl)).1,
   ((c2_idempotent_resumption (fun _ => true)
      [[Value.num 1], [Value.num 2]] [] 10000 (by decide)).2
      (fun _ => rfl)).2⟩

/-- C3: over a full run from an empty destination with a positive block
size, the source row numbers of the returned pages, in order, are exactly
`1, 2, …, total`: the pages cover `[1, total]` with no gap and no
overlap. -/
theorem c3_page_coverage (rowOk : Row → Bool) (source : List Row)
    (bs : Nat) (hbs : 1 ≤ bs) :
    (((extract_and_load_data_in_chunks rowOk source [] bs).2.2).map
        (fun pr => List.range' (pr.1 + 1) pr.2.length)).flatten
      = List.range' 1 source.length := by
  have hshape := (pagingLoop_shape rowOk source bs source.length 0 []
    (by omega)).1
  have hcover := pagesShape_cover source.length bs hbs source.length 0
    (by omega)
  have hmm : ((pagingLoop rowOk source bs 0 []).2.2.map
      (fun pr => List.range' (pr.1 + 1) pr.2.length))
      = (((pagingLoop rowOk source bs 0 []).2.2.map
          (fun pr => (pr.1, pr.2.length))).map
          (fun q => List.range' (q.1 + 1) q.2)) := by
    rw [List.map_map]
    rfl
  show (((pagingLoop rowOk source bs ([] : List Row).length []).2.2).map
      (fun pr => List.range' (pr.1 + 1) pr.2.length)).flatten
      = List.range' 1 source.length
  simp only [List.length_nil]
  rw [hmm, hshape, hcover]
  simp

/-- C9: the paging loop performs only finitely many iterations — at most
`total - offset` pages are produced, every produced page is non-empty,
and the offsets at which pages are requested strictly increase. -/
theorem c9_loop_termination (rowOk : Row → Bool) (source : List Row)
    (bs off : Nat) (dest : List Row) :
    (pagingLoop rowOk source bs off dest).2.2.length ≤ source.length - off
    ∧ (∀ pr ∈ (pagingLoop rowOk source bs off dest).2.2,
        1 ≤ pr.2.length ∧ off ≤ pr.1)
    ∧ (pagingLoop rowOk source bs off dest).2.2.Pairwise
        (fun p q => p.1 < q.1) := by
  have hshape := (pagingLoop_shape rowOk source bs (source.length - off) off
    dest (by omega)).1
  have hbounds := pagesShape_bounds source.length bs (source.length - off)
    off (by omega)
  refine ⟨?_, ?_, ?_⟩
  · have : ((pagingLoop rowOk source bs off dest).2.2.map
        (fun pr => (pr.1, pr.2.length))).length ≤ source.length - off := by
      rw [hshape]
      exact hbounds.1
    simpa using this
  · intro pr hpr
    have hmem : (pr.1, pr.2.length) ∈ pagesShape source.length bs off := by
      rw [← hshape]
      exact List.mem_map_of_mem _ hpr
    exact hbounds.2.1 (pr.1, pr.2.length) hmem
  · have := hbounds.2.2
    rw [← hshape] at this
    exact (List.pairwise_map.mp this).imp (fun hab => hab)

/-- C4: on a page whose sanitized rows are all acceptable except one, the
bulk append fails, the row-level fallback lands every other row in order,
the malformed row is skipped for good, and the loop's offset bookkeeping
is unaffected by append outcomes — the offset advances exactly as it
would have with an always-succeeding sink. -/
theorem c4_fallback_isolation (rowOk : Row → Bool) (dest : List Row)
    (df a b : List Row) (bad : Row)
    (hsplit : sanitize_dataframe df = a ++ bad :: b)
    (hbad : rowOk bad = false)
    (hgood : ∀ r ∈ a ++ b, rowOk r = true) :
    (appendBulk rowOk dest (sanitize_dataframe df)).2 = false
    ∧ load_data_using_copy rowOk dest df = dest ++ (a ++ b)
    ∧ (a ++ b).length + 1 = df.length
    ∧ (∀ (rowOk₂ : Row → Bool) (source : List Row) (bs off : Nat)
        (dest₂ dest₃ : List Row),
        (pagingLoop rowOk source bs off dest₂).1
          = (pagingLoop rowOk₂ source bs off dest₃).1) := by
  have hfail : (sanitize_dataframe df).all rowOk = false := by
    rw [hsplit]
    simp [List.all_append, hbad]
  have ha : a.filter rowOk = a :=
    List.filter_eq_self.mpr (fun r hr => hgood r (List.mem_append_left _ hr))
  have hb : b.filter rowOk = b :=
    List.filter_eq_self.mpr (fun r hr => hgood r (List.mem_append_right _ hr))
  refine ⟨?_, ?_, ?_, ?_⟩
  · simp [appendBulk, hfail]
  · rw [load_data_using_copy_fail rowOk dest df hfail, hsplit]
    simp [List.filter_append, List.filter_cons, hbad, ha, hb]
  · have hlen := congrArg List.length hsplit
    rw [sanitize_dataframe_length] at hlen
    simp only [List.length_append, List.length_cons] at hlen ⊢
    omega
  · intro rowOk₂ source bs off dest₂ dest₃
    rw [(pagingLoop_shape rowOk source bs (source.length - off) off dest₂
        (by omega)).2,
      (pagingLoop_shape rowOk₂ source bs (source.length - off) off dest₃
        (by omega)).2]

/-- Witness for C4 at a concrete input: a three-row page whose middle row
the sink rejects; the other two rows land and the offset advance is
unchanged. -/
theorem c4_fallback_isolation_witness :
    sanitize_dataframe [[Value.str "x"], [Value.null], [Value.str "y"]]
      = [[Value.str "x"]] ++ [Value.null] :: [[Value.str "y"]]
    ∧ (fun r => decide (r ≠ [Value.null])) [Value.null] = false
    ∧ (∀ r ∈ [[Value.str "x"]] ++ [[Value.str "y"]],
        (fun r => decide (r ≠ [Value.null])) r = true)
    ∧ ((appendBulk (fun r => decide (r ≠ [Value.null])) []
          (sanitize_dataframe
            [[Value.str "x"], [Value.null], [Value.str "y"]])).2 = false
      ∧ load_data_using_copy (fun r => decide (r ≠ [Value.null])) []
          [[Value.str "x"], [Value.null], [Value.str "y"]]
        = [] ++ ([[Value.str "x"]] ++ [[Value.str "y"]])
      ∧ ([[Value.str "x"]] ++ [[Value.str "y"]]).length + 1
          = ([[Value.str "x"], [Value.null], [Value.str "y"]] : List Row).length
      ∧ (∀ (rowOk₂ : Row → Bool) (source : List Row) (bs off : Nat)
          (dest₂ dest₃ : List Row),
          (pagingLoop (fun r => decide (r ≠ [Value.null])) source bs off
            dest₂).1 = (pagingLoop rowOk₂ source bs off dest₃).1)) :=
  ⟨by decide, by decide, by decide,
   c4_fallback_isolation (fun r => decide (r ≠ [Value.null])) []
     [[Value.str "x"], [Value.null], [Value.str "y"]]
     [[Value.str "x"]] [[Value.str "y"]] [Value.null]
     (by decide) (by decide) (by decide)⟩

/-- C7: with 25000 source rows and block size 10000, a run from an empty
destination requests exactly three pages covering rows 1-10000,
10001-20000 and 20001-25000 (the third returning 5000 rows), with offset
progression 0, 10000, 20000 and final offset 25000; a run from a
destination of 15000 rows requests one page covering rows 15001-25000 and
finishes at offset 25000. -/
theorem c7_scenario_25000 (rowOk : Row → Bool) (source dest15 : List Row)
    (h25 : source.length = 25000) (h15 : dest15.length = 15000) :
    ((extract_and_load_data_in_chunks rowOk source [] 10000).2.2.map
        (fun pr => (pr.1 + 1, pr.1 + pr.2.length))
      = [(1, 10000), (10001, 20000), (20001, 25000)])
    ∧ ((extract_and_load_data_in_chunks rowOk source [] 10000).2.2.map
        (fun pr => pr.2.length) = [10000, 10000, 5000])
    ∧ ((extract_and_load_data_in_chunks rowOk source [] 10000).2.2.map
        Prod.fst = [0, 10000, 20000])
    ∧ (extract_and_load_data_in_chunks rowOk source [] 10000).1 = 25000
    ∧ ((extract_and_load_data_in_chunks rowOk source dest15 10000).2.2.map
        (fun pr => (pr.1 + 1, pr.1 + pr.2.length)) = [(15001, 25000)])
    ∧ (extract_and_load_data_in_chunks rowOk source dest15 10000).1
        = 25000 := by
  have hsh0 : pagesShape 25000 10000 0
      = [(0, 10000), (10000, 10000), (20000, 5000)] := by
    rw [pagesShape]; norm_num
    rw [pagesShape]; norm_num
    rw [pagesShape]; norm_num
    rw [pagesShape]; norm_num
  have hsh15 : pagesShape 25000 10000 15000 = [(15000, 10000)] := by
    rw [pagesShape]; norm_num
    rw [pagesShape]; norm_num
  have h1 := pagingLoop_shape rowOk source 10000 source.length 0 []
    (by omega)
  rw [h25, hsh0] at h1
  have h2 := pagingLoop_shape rowOk source 10000 source.length 15000 dest15
    (by omega)
  rw [h25, hsh15] at h2
  simp only [extract_and_load_data_in_chunks, List.length_nil, h15]
  refine ⟨?_, ?_, ?_, ?_, ?_, ?_⟩
  · rw [show (fun (pr : Nat × List Row) => (pr.1 + 1, pr.1 + pr.2.length))
        = ((fun q : Nat × Nat => (q.1 + 1, q.1 + q.2))
            ∘ (fun pr : Nat × List Row => (pr.1, pr.2.length))) from rfl,
      ← List.map_map, h1.1]
    decide
  · rw [show (fun (pr : Nat × List Row) => pr.2.length)
        = (Prod.snd ∘ (fun pr : Nat × List Row => (pr.1, pr.2.length)))
          from rfl,
      ← List.map_map, h1.1]
    decide
  · rw [show (Prod.fst : Nat × List Row → Nat)
        = (Prod.fst ∘ (fun pr : Nat × List Row => (pr.1, pr.2.length)))
          from rfl,
      ← List.map_map, h1.1]
    decide
  · rw [h1.2]
    decide
  · rw [show (fun (pr : Nat × List Row) => (pr.1 + 1, pr.1 + pr.2.length))
        = ((fun q : Nat × Nat => (q.1 + 1, q.1 + q.2))
            ∘ (fun pr : Nat × List Row => (pr.1, pr.2.length))) from rfl,
      ← List.map_map, h2.1]
    decide
  · rw [h2.2]
    decide

/-- Witness for C7 at a concrete input: replicated 25000-row source and
15000-row pre-filled destination. -/
theorem c7_scenario_25000_witness :
    (List.replicate 25000 ([] : Row)).length = 25000
    ∧ (List.replicate 15000 ([] : Row)).length = 15000
    ∧ (((extract_and_load_data_in_chunks (fun _ => true)
          (List.replicate 25000 ([] : Row)) [] 10000).2.2.map
          (fun pr => (pr.1 + 1, pr.1 + pr.2.length))
        = [(1, 10000), (10001, 20000), (20001, 25000)])
      ∧ ((extract_and_load_data_in_chunks (fun _ => true)
          (List.replicate 25000 ([] : Row)) [] 10000).2.2.map
          (fun pr => pr.2.length) = [10000, 10000, 5000])
      ∧ ((extract_and_load_data_in_chunks (fun _ => true)
          (List.replicate 25000 ([] : Row)) [] 10000).2.2.map
          Prod.fst = [0, 10000, 20000])
      ∧ (extract_and_load_data_in_chunks (fun _ => true)
          (List.replicate 25000 ([] : Row)) [] 10000).1 = 25000
      ∧ ((extract_and_load_data_in_chunks (fun _ => true)
          (List.replicate 25000 ([] : Row))
          (List.replicate 15000 ([] : Row)) 10000).2.2.map
          (fun pr => (pr.1 + 1, pr.1 + pr.2.length)) = [(15001, 25000)])
      ∧ (extract_and_load_data_in_chunks (fun _ => true)
          (List.replicate 25000 ([] : Row))
          (List.replicate 15000 ([] : Row)) 10000).1 = 25000) :=
  ⟨by rw [List.length_replicate], by rw [List.length_replicate],
   c7_scenario_25000 (fun _ => true) (List.replicate 25000 ([] : Row))
     (List.replicate 15000 ([] : Row)) (by rw [List.length_replicate])
     (by rw [List.length_replicate])⟩

/-- Witness for C3 at a concrete input: three source rows, block size 2,
pages covering row numbers 1, 2, 3 exactly. -/
theorem c3_page_coverage_witness :
    1 ≤ 2
    ∧ (((extract_and_load_data_in_chunks (fun _ => true)
          [[Value.num 1], [Value.num 2], [Value.num 3]] [] 2).2.2).map
        (fun pr => List.range' (pr.1 + 1) pr.2.length)).flatten
      = List.range' 1 3 :=
  ⟨by decide,
   c3_page_coverage (fun _ => true)
     [[Value.num 1], [Value.num 2], [Value.num 3]] 2 (by decide)⟩
